import Mathlib

/-!
Shallow embedding of the `WeatherCommodityForecaster` class from `Model.Py`
(Weather-Driven-Commodity-Pricing-Model).  Numeric values are modelled by `ℚ`;
the float NaN produced by a 0/0 division inside the drought index, which the
source removes with `.fillna(0)`, is modelled by the explicit zero branch; the
possible division by zero in the MAPE metric is modelled by an `Option` result
(`none` = the division-by-zero was performed).  Per-model regressors are opaque
row-wise prediction functions: the claims under study concern the surrounding
control flow (dict keys, blending, lengths, dates, error propagation), not the
numerics that sklearn/statsmodels/tensorflow compute inside each model.
-/

namespace WCF

/-- The six model identifiers ever inserted in `self.models` by `fit`. -/
inductive ModelName
  | rf | gb | ridge | elastic | arima | lstm
deriving DecidableEq, Repr

/-- A feature row.  Its contents are opaque to all the control flow we verify:
models consume rows only through their prediction functions. -/
def Row : Type := List ℚ

/-- Mean of a list of rationals (`sum / len`, the pandas `.mean()` of a
non-empty window; on the empty list the Lean `x / 0 = 0` convention is unused by
the claims because pandas windows with `min_periods=1` are non-empty). -/
def listMean (l : List ℚ) : ℚ := l.sum / l.length

/-- `rolling(window=w, min_periods=1).mean()` of the precip column, evaluated at
every position: at index `i` the mean of the trailing `min (i+1) w` values. -/
def rollingMeanSeries (w : Nat) (xs : List ℚ) : List ℚ :=
  (List.range xs.length).map (fun i => listMean ((xs.take (i + 1)).drop (i + 1 - w)))

/-- `expanding().mean()` of the precip column, evaluated at every position:
at index `i` the mean of the first `i+1` values. -/
def expandingMeanSeries (xs : List ℚ) : List ℚ :=
  (List.range xs.length).map (fun i => listMean (xs.take (i + 1)))

/-- `_calculate_drought_index`:
`np.maximum(0, (long_term_avg - rolling_precip) / long_term_avg)` followed by
`.fillna(0)`.  When the expanding mean is `0` (an all-zero prefix for genuine,
non-negative precipitation) the float quotient is NaN, `np.maximum` propagates
it and `.fillna(0)` turns it into `0`: the zero branch below. -/
def calculate_drought_index (w : Nat) (xs : List ℚ) : List ℚ :=
  List.zipWith
    (fun lt rl => if lt = 0 then 0 else max 0 ((lt - rl) / lt))
    (expandingMeanSeries xs) (rollingMeanSeries w xs)

/-- Spec-side restatement (the words of claim C5): value at position `i` is
`max(0, (expanding-mean-to-date − trailing-window-mean) / expanding-mean)`,
forced to `0` when the expanding mean is `0`. -/
def droughtIndexSpec (w : Nat) (xs : List ℚ) (i : Nat) : ℚ :=
  let lt := listMean (xs.take (i + 1))
  let rl := listMean ((xs.take (i + 1)).drop (i + 1 - w))
  if lt = 0 then 0 else max 0 ((lt - rl) / lt)

/-! ### Ensemble weighting (`_calculate_ensemble_weights`) -/

/-- `total_score = sum(max(0, score) for score in cv_scores.values())`. -/
def totalClipped (scores : List (ModelName × ℚ)) : ℚ :=
  (scores.map (fun p => max 0 p.2)).sum

/-- The weight-normalisation step of `_calculate_ensemble_weights`, acting on
the assembled `cv_scores` association list (dict insertion order kept). -/
def calculate_ensemble_weights (scores : List (ModelName × ℚ)) : List (ModelName × ℚ) :=
  if 0 < totalClipped scores then
    scores.map (fun p => (p.1, max 0 p.2 / totalClipped scores))
  else
    scores.map (fun p => (p.1, 1 / (scores.length : ℚ)))

/-- The `cv_scores` assembly loop of `_calculate_ensemble_weights`: models that
are `None` are skipped, `arima` and `lstm` are skipped explicitly, a model whose
`cross_val_score` call raises is recorded with score `0`, every other model is
recorded with its mean R² score (here the oracle `score`). -/
def cvScoresOf (models : List (ModelName × Bool)) (score : ModelName → ℚ)
    (cvFails : ModelName → Bool) : List (ModelName × ℚ) :=
  models.filterMap (fun p =>
    if p.2 = false then none
    else
      match p.1 with
      | .arima => none
      | .lstm => none
      | _ => some (p.1, if cvFails p.1 then 0 else score p.1))

/-! ### The fitted object and `predict` -/

/-- Snapshot of a `WeatherCommodityForecaster` object as `predict` / `evaluate`
/ `forecast_future` see it.  `models` is the insertion-ordered `self.models`
dict (`true` = the stored model is not `None`); `predOf` gives the row-wise
prediction function of each model (constant for `arima`, which repeats its
last fitted value); `predFails` says whether the prediction call of that
model raises. -/
structure Forecaster where
  isFitted : Bool
  models : List (ModelName × Bool)
  tfAvailable : Bool
  weights : List (ModelName × ℚ)
  predOf : ModelName → Row → ℚ
  predFails : ModelName → Bool
  XTest : List Row
  yTest : List ℚ

/-- `self.ensemble_weights.get(name, 0)`. -/
def weightOf (ws : List (ModelName × ℚ)) (n : ModelName) : ℚ :=
  match ws.find? (fun p => decide (p.1 = n)) with
  | some p => p.2
  | none => 0

/-- Whether the dispatch in `predict` reaches a `model.predict` call here:
the `lstm` branch additionally requires `TENSORFLOW_AVAILABLE`. -/
def attemptsPrediction (st : Forecaster) (n : ModelName) : Bool :=
  match n with
  | .lstm => st.tfAvailable
  | _ => true

/-- The per-model prediction loop of `predict`: skip `None` models, skip a
model whose branch is not reached, drop a model whose prediction call raises
(the `except` path), otherwise record a length-`|X|` prediction vector. -/
def modelPredictions (st : Forecaster) (X : List Row) : List (ModelName × List ℚ) :=
  st.models.filterMap (fun p =>
    if p.2 = false then none
    else if attemptsPrediction st p.1 = false then none
    else if st.predFails p.1 then none
    else some (p.1, X.map (st.predOf p.1)))

/-- `np.zeros(len(X))`. -/
def zerosVec (n : Nat) : List ℚ := List.replicate n 0

/-- One iteration of the blending loop:
`ensemble_pred += weight * pred; total_weight += weight`. -/
def blendStep (ws : List (ModelName × ℚ)) (acc : List ℚ × ℚ) (p : ModelName × List ℚ) :
    List ℚ × ℚ :=
  (List.zipWith (fun a x => a + weightOf ws p.1 * x) acc.1 p.2,
   acc.2 + weightOf ws p.1)

/-- The whole accumulation loop of the ensemble phase of `predict`. -/
def blendFold (ws : List (ModelName × ℚ)) (preds : List (ModelName × List ℚ)) (n : Nat) :
    List ℚ × ℚ :=
  preds.foldl (blendStep ws) (zerosVec n, 0)

/-- `predict`: raises before fit; raises when no model produced a prediction;
otherwise accumulates `weight * pred` and divides by the total weight only when
that total is positive. -/
def predict (st : Forecaster) (X : List Row) : Except String (List ℚ) :=
  if st.isFitted = false then
    .error ("Model must be fitted before making predictions")
  else
    let preds := modelPredictions st X
    if preds.isEmpty then
      .error ("No models available for prediction")
    else
      let r := blendFold st.weights preds X.length
      .ok (if 0 < r.2 then r.1.map (fun v => v / r.2) else r.1)

/-- Spec-side: the total ensemble weight of exactly the models that produced a
prediction (the divisor in claim C2). -/
def usedWeight (ws : List (ModelName × ℚ)) (preds : List (ModelName × List ℚ)) : ℚ :=
  (preds.map (fun p => weightOf ws p.1)).sum

/-- Spec-side: the weighted sum, at row `i`, of the predictions that were
produced (the numerator in claim C2). -/
def weightedSumAt (ws : List (ModelName × ℚ)) (preds : List (ModelName × List ℚ))
    (i : Nat) : ℚ :=
  (preds.map (fun p => weightOf ws p.1 * p.2.getD i 0)).sum

/-! ### `evaluate` -/

/-- `mean_absolute_error(y_test, y_pred)`. -/
def maeOf (ys yps : List ℚ) : ℚ :=
  (List.zipWith (fun a b => |a - b|) ys yps).sum / (ys.length : ℚ)

/-- `mean_squared_error(y_test, y_pred)` (the source reports `RMSE = sqrt` of
this; the square root is irrational and not referenced by any claim, so the
mean squared error itself is kept). -/
def mseOf (ys yps : List ℚ) : ℚ :=
  (List.zipWith (fun a b => (a - b) ^ 2) ys yps).sum / (ys.length : ℚ)

/-- `np.mean(np.abs((y_test - y_pred) / y_test)) * 100`, which divides by each
actual value with no guard: a zero actual makes the float computation perform a
division by zero, modelled here by `none`. -/
def mapeOf (ys yps : List ℚ) : Option ℚ :=
  if (0 : ℚ) ∈ ys then none
  else some (100 * ((List.zipWith (fun a b => |(a - b) / a|) ys yps).sum / (ys.length : ℚ)))

/-- `evaluate`: raises before fit, otherwise predicts on the stored test rows
(a prediction failure propagates) and reports (MAE, MSE, MAPE).  `r2_score` is
not referenced by any claim and is omitted. -/
def evaluate (st : Forecaster) : Except String (ℚ × ℚ × Option ℚ) :=
  if st.isFitted = false then
    .error ("Model must be fitted before evaluation")
  else
    match predict st st.XTest with
    | .error e => .error e
    | .ok yp => .ok (maeOf st.yTest yp, mseOf st.yTest yp, mapeOf st.yTest yp)

/-! ### The model-training segment of `fit` -/

/-- Which training steps fail when `fit` runs (an oracle for the exceptions the
underlying libraries may raise), plus the `TENSORFLOW_AVAILABLE` gate. -/
structure TrainOutcome where
  rfFails : Bool
  gbFails : Bool
  ridgeFails : Bool
  elasticFails : Bool
  arimaFails : Bool
  lstmFails : Bool
  tensorflowAvailable : Bool

/-- The model-training segment of `fit` (lines 216–257): the four regressors
are fit with no `try`, so their exceptions propagate (`.error`); the ARIMA and
LSTM fits are wrapped in `try/except` and a failure stores `None`
(`false` in the returned dict).  The `lstm` key exists only when
`TENSORFLOW_AVAILABLE`. -/
def fitModels (o : TrainOutcome) : Except String (List (ModelName × Bool)) :=
  if o.rfFails then .error ("rf training failed")
  else if o.gbFails then .error ("gb training failed")
  else if o.ridgeFails then .error ("ridge training failed")
  else if o.elasticFails then .error ("elastic training failed")
  else
    .ok ([(.rf, true), (.gb, true), (.ridge, true), (.elastic, true),
          (.arima, !o.arimaFails)] ++
         (if o.tensorflowAvailable then [(.lstm, !o.lstmFails)] else []))

/-! ### `forecast_future` -/

/-- The max of the date column, dates encoded as day ordinals. -/
def lastDateOf (dates : List Nat) : Nat := dates.foldl max 0

/-- Model of `pd.date_range(start=last_date + 1 day, periods=n, freq=D)`. -/
def futureDates (d : Nat) (n : Nat) : List Nat :=
  (List.range n).map (fun i => d + 1 + i)

/-- `forecast_future`: raises before fit; builds `n` future dates starting the
day after the last historical date; synthesises `n` future feature rows (the
weather synthesis and feature pipeline are abstracted by the oracle
`futureRowOf`, one row per future day, exactly as `future_df` /
`combined_features.iloc[-n_days:]` hold one row per future day); predicts
(a `predict` exception propagates) and returns the date/predicted-price
table. -/
def forecast_future (st : Forecaster) (dates : List Nat) (n : Nat)
    (futureRowOf : Nat → Row) : Except String (List (Nat × ℚ)) :=
  if st.isFitted = false then
    .error ("Model must be fitted before forecasting")
  else
    match predict st ((List.range n).map futureRowOf) with
    | .error e => .error e
    | .ok preds => .ok ((futureDates (lastDateOf dates) n).zip preds)

/-! ### Concrete states used to exercise the theorems -/

/-- A freshly constructed forecaster: `is_fitted` is `False` and no model or
weight has been stored. -/
def stPre : Forecaster :=
  { isFitted := false, models := [], tfAvailable := false, weights := [],
    predOf := fun _ _ => 0, predFails := fun _ => false, XTest := [], yTest := [] }

/-- A fitted forecaster in which only `rf` predicts successfully (constant 2)
and carries the whole ensemble weight; test actuals are non-zero. -/
def stOne : Forecaster :=
  { isFitted := true,
    models := [(.rf, true), (.gb, true), (.ridge, true), (.elastic, true), (.arima, false)],
    tfAvailable := false,
    weights := [(.rf, 1), (.gb, 0), (.ridge, 0), (.elastic, 0)],
    predOf := fun _ _ => 2,
    predFails := fun n => match n with | .rf => false | _ => true,
    XTest := [[], []], yTest := [3, 4] }

/-- A fitted forecaster in which only the `arima` model predicts successfully
(constant 7); `arima` has no entry in the ensemble weights, so its weight
defaults to 0. -/
def stArimaOnly : Forecaster :=
  { isFitted := true,
    models := [(.rf, true), (.gb, true), (.ridge, true), (.elastic, true), (.arima, true)],
    tfAvailable := false,
    weights := [(.rf, 1/4), (.gb, 1/4), (.ridge, 1/4), (.elastic, 1/4)],
    predOf := fun n _ => match n with | .arima => 7 | _ => 0,
    predFails := fun n => match n with | .arima => false | _ => true,
    XTest := [[]], yTest := [5] }

/-- A fitted forecaster in which the prediction call of every model fails. -/
def stNoPred : Forecaster :=
  { stArimaOnly with predFails := fun _ => true }

/-- A fitted forecaster whose held-out actuals contain a zero. -/
def stZeroActual : Forecaster :=
  { isFitted := true,
    models := [(.rf, true), (.gb, true), (.ridge, true), (.elastic, true), (.arima, false)],
    tfAvailable := false,
    weights := [(.rf, 1), (.gb, 0), (.ridge, 0), (.elastic, 0)],
    predOf := fun _ _ => 1,
    predFails := fun n => match n with | .rf => false | _ => true,
    XTest := [[]], yTest := [0] }

/-! ## Lemmas about the drought index -/

theorem listMean_nonneg (l : List ℚ) (h : ∀ x ∈ l, 0 ≤ x) : 0 ≤ listMean l :=
  div_nonneg (List.sum_nonneg h) (by positivity)

theorem listMean_replicate (k : Nat) (c : ℚ) (hk : k ≠ 0) :
    listMean (List.replicate k c) = c := by
  have hk2 : ((k : ℚ)) ≠ 0 := Nat.cast_ne_zero.mpr hk
  simp only [listMean, List.sum_replicate, List.length_replicate, nsmul_eq_mul]
  rw [mul_comm, mul_div_assoc, div_self hk2, mul_one]

theorem drought_length (w : Nat) (xs : List ℚ) :
    (calculate_drought_index w xs).length = xs.length := by
  simp [calculate_drought_index, expandingMeanSeries, rollingMeanSeries]

theorem drought_getD (w : Nat) (xs : List ℚ) (i : Nat) (h : i < xs.length) :
    (calculate_drought_index w xs).getD i 0 = droughtIndexSpec w xs i := by
  have hl : i < (calculate_drought_index w xs).length := by
    rw [drought_length]; exact h
  rw [List.getD_eq_getElem _ _ hl]
  unfold calculate_drought_index at hl ⊢
  rw [List.getElem_zipWith]
  simp [expandingMeanSeries, rollingMeanSeries, droughtIndexSpec]

theorem mem_drought_eq_spec (w : Nat) (xs : List ℚ) (y : ℚ)
    (hy : y ∈ calculate_drought_index w xs) :
    ∃ i, i < xs.length ∧ y = droughtIndexSpec w xs i := by
  rcases List.mem_iff_getElem.mp hy with ⟨i, hi, hval⟩
  have hix : i < xs.length := by rw [drought_length] at hi; exact hi
  refine ⟨i, hix, ?_⟩
  rw [← hval, ← List.getD_eq_getElem _ 0 hi, drought_getD w xs i hix]

theorem droughtIndexSpec_nonneg (w : Nat) (xs : List ℚ) (i : Nat) :
    0 ≤ droughtIndexSpec w xs i := by
  unfold droughtIndexSpec
  dsimp only
  split
  · exact le_refl 0
  · exact le_max_left 0 _

theorem droughtIndexSpec_le_one (w : Nat) (xs : List ℚ) (i : Nat)
    (hx : ∀ v ∈ xs, 0 ≤ v) : droughtIndexSpec w xs i ≤ 1 := by
  unfold droughtIndexSpec
  dsimp only
  split
  · norm_num
  · rename_i hne
    have hltnn : 0 ≤ listMean (xs.take (i + 1)) :=
      listMean_nonneg _ (fun x hxm => hx x (List.mem_of_mem_take hxm))
    have hltpos : 0 < listMean (xs.take (i + 1)) := lt_of_le_of_ne hltnn (Ne.symm hne)
    have hrlnn : 0 ≤ listMean ((xs.take (i + 1)).drop (i + 1 - w)) :=
      listMean_nonneg _
        (fun x hxm => hx x (List.mem_of_mem_take (List.mem_of_mem_drop hxm)))
    have hdiv : (listMean (xs.take (i + 1)) - listMean ((xs.take (i + 1)).drop (i + 1 - w)))
        / listMean (xs.take (i + 1)) ≤ 1 := by
      rw [div_le_one hltpos]; linarith
    exact max_le (by norm_num) hdiv

theorem droughtIndexSpec_const (w n i : Nat) (c : ℚ) (hc : 0 < c) (hw : 1 ≤ w)
    (hi : i < n) : droughtIndexSpec w (List.replicate n c) i = 0 := by
  unfold droughtIndexSpec
  dsimp only
  rw [List.take_replicate, List.drop_replicate]
  have hmin : min (i + 1) n = i + 1 := by omega
  rw [hmin]
  have h1 : listMean (List.replicate (i + 1) c) = c :=
    listMean_replicate _ _ (by omega)
  have h2 : listMean (List.replicate (i + 1 - (i + 1 - w)) c) = c :=
    listMean_replicate _ _ (by omega)
  rw [h1, h2, if_neg (ne_of_gt hc)]
  simp

/-- C5: for every precipitation sequence and window size, the drought index is
a same-length sequence whose value at each position equals
`max(0, (expanding-mean-to-date − trailing-window-mean) / expanding-mean-to-date)`
of the precipitation values, forced to `0` whenever the expanding mean is `0`
(the case in which the float quotient is undefined). -/
theorem drought_index_matches_formula (w : Nat) (xs : List ℚ) :
    (calculate_drought_index w xs).length = xs.length ∧
    ∀ i, i < xs.length →
      (calculate_drought_index w xs).getD i 0 = droughtIndexSpec w xs i :=
  ⟨drought_length w xs, fun i hi => drought_getD w xs i hi⟩

theorem drought_index_matches_formula_witness :
    (calculate_drought_index 2 [4, 0, 0, 0]).length = 4 ∧
    (calculate_drought_index 2 [4, 0, 0, 0]).getD 2 0 = droughtIndexSpec 2 [4, 0, 0, 0] 2 :=
  ⟨(drought_index_matches_formula 2 [4, 0, 0, 0]).1,
   (drought_index_matches_formula 2 [4, 0, 0, 0]).2 2 (by norm_num)⟩

/-- C8: every drought-index value is non-negative; over a (non-negative)
precipitation sequence every value is at most `1`; and over a constant positive
sequence every value is `0` (window at least `1`, as pandas requires
`min_periods=1 ≤ window`). -/
theorem drought_index_bounds (w : Nat) :
    (∀ xs : List ℚ, ∀ y ∈ calculate_drought_index w xs, 0 ≤ y) ∧
    (∀ xs : List ℚ, (∀ v ∈ xs, 0 ≤ v) → ∀ y ∈ calculate_drought_index w xs, y ≤ 1) ∧
    (∀ (n : Nat) (c : ℚ), 0 < c → 1 ≤ w →
      ∀ y ∈ calculate_drought_index w (List.replicate n c), y = 0) := by
  refine ⟨?_, ?_, ?_⟩
  · intro xs y hy
    rcases mem_drought_eq_spec w xs y hy with ⟨i, _, rfl⟩
    exact droughtIndexSpec_nonneg w xs i
  · intro xs hx y hy
    rcases mem_drought_eq_spec w xs y hy with ⟨i, _, rfl⟩
    exact droughtIndexSpec_le_one w xs i hx
  · intro n c hc hw y hy
    rcases mem_drought_eq_spec w _ y hy with ⟨i, hi, rfl⟩
    rw [List.length_replicate] at hi
    exact droughtIndexSpec_const w n i c hc hw hi

theorem drought_index_bounds_witness :
    (∀ y ∈ calculate_drought_index 30 [1, 2, 0], 0 ≤ y) ∧
    (∀ y ∈ calculate_drought_index 30 [1, 2, 0], y ≤ 1) ∧
    (∀ y ∈ calculate_drought_index 30 (List.replicate 3 5), y = 0) :=
  ⟨(drought_index_bounds 30).1 [1, 2, 0],
   (drought_index_bounds 30).2.1 [1, 2, 0] (by norm_num),
   (drought_index_bounds 30).2.2 3 5 (by norm_num) (by norm_num)⟩

/-! ## Lemmas about the ensemble weights -/

theorem sum_map_div (l : List ℚ) (T : ℚ) :
    (l.map (fun x => x / T)).sum = l.sum / T := by
  induction l with
  | nil => simp
  | cons a t ih => simp [ih, add_div]

theorem sum_snd_map_pair (l : List (ModelName × ℚ)) (g : ModelName × ℚ → ℚ) :
    ((l.map (fun p => (p.1, g p))).map Prod.snd).sum = (l.map g).sum := by
  induction l with
  | nil => rfl
  | cons a t ih => simp only [List.map_cons, List.sum_cons, ih]

theorem totalClipped_nonneg (scores : List (ModelName × ℚ)) : 0 ≤ totalClipped scores :=
  List.sum_nonneg (by
    intro x hx
    rcases List.mem_map.mp hx with ⟨p, _, rfl⟩
    exact le_max_left 0 p.2)

/-- C1: the ensemble weight set is keyed by exactly the scored models, every
weight is non-negative, each weight equals the clipped score divided by the
clipped total when that total is positive and `1/N` otherwise, and in either
branch the weights sum to `1` (a successful `fit` always scores the four
regressors, so the score list is non-empty). -/
theorem ensemble_weights_correct (scores : List (ModelName × ℚ)) (hne : scores ≠ []) :
    ((calculate_ensemble_weights scores).map Prod.fst = scores.map Prod.fst) ∧
    (∀ p ∈ calculate_ensemble_weights scores, 0 ≤ p.2) ∧
    (0 < totalClipped scores →
      calculate_ensemble_weights scores
        = scores.map (fun p => (p.1, max 0 p.2 / totalClipped scores))) ∧
    (¬ 0 < totalClipped scores →
      calculate_ensemble_weights scores
        = scores.map (fun p => (p.1, 1 / (scores.length : ℚ)))) ∧
    ((calculate_ensemble_weights scores).map Prod.snd).sum = 1 := by
  have hlen : ((scores.length : ℚ)) ≠ 0 := by
    have : scores.length ≠ 0 := by
      intro h0
      exact hne (List.length_eq_zero.mp h0)
    exact Nat.cast_ne_zero.mpr this
  by_cases hpos : 0 < totalClipped scores
  · refine ⟨?_, ?_, fun _ => ?_, fun hc => absurd hpos hc, ?_⟩
    · simp [calculate_ensemble_weights, hpos]
    · intro p hp
      simp only [calculate_ensemble_weights, if_pos hpos] at hp
      rcases List.mem_map.mp hp with ⟨q, _, rfl⟩
      exact div_nonneg (le_max_left 0 q.2) (le_of_lt hpos)
    · simp [calculate_ensemble_weights, hpos]
    · simp only [calculate_ensemble_weights, if_pos hpos]
      rw [sum_snd_map_pair]
      have hcomp : scores.map (fun p => max 0 p.2 / totalClipped scores)
          = (scores.map (fun p => max 0 p.2)).map (fun x => x / totalClipped scores) := by
        rw [List.map_map]; rfl
      rw [hcomp, sum_map_div]
      exact div_self (ne_of_gt hpos)
  · refine ⟨?_, ?_, fun hc => absurd hc hpos, fun _ => ?_, ?_⟩
    · simp [calculate_ensemble_weights, hpos]
    · intro p hp
      simp only [calculate_ensemble_weights, if_neg hpos] at hp
      rcases List.mem_map.mp hp with ⟨q, _, rfl⟩
      positivity
    · simp [calculate_ensemble_weights, hpos]
    · simp only [calculate_ensemble_weights, if_neg hpos]
      rw [sum_snd_map_pair]
      have hconst : scores.map (fun _ => 1 / (scores.length : ℚ))
          = List.replicate scores.length (1 / (scores.length : ℚ)) :=
        List.map_const' scores _
      rw [hconst, List.sum_replicate, nsmul_eq_mul, mul_one_div, div_self hlen]

theorem ensemble_weights_correct_witness :
    (([(ModelName.rf, (1 : ℚ) / 2), (ModelName.gb, -1)] : List (ModelName × ℚ)) ≠ []) ∧
    ((calculate_ensemble_weights
        [(ModelName.rf, (1 : ℚ) / 2), (ModelName.gb, -1)]).map Prod.snd).sum = 1 :=
  ⟨by simp,
   (ensemble_weights_correct [(ModelName.rf, (1 : ℚ) / 2), (ModelName.gb, -1)]
     (by simp)).2.2.2.2⟩

/-! ## Lemmas about the prediction loop and the blend -/

theorem mem_modelPredictions_length (st : Forecaster) (X : List Row)
    (pr : ModelName × List ℚ) (hm : pr ∈ modelPredictions st X) :
    pr.2.length = X.length := by
  unfold modelPredictions at hm
  rcases List.mem_filterMap.mp hm with ⟨p, _, hf⟩
  by_cases h1 : p.2 = false
  · rw [if_pos h1] at hf; cases hf
  rw [if_neg h1] at hf
  by_cases h2 : attemptsPrediction st p.1 = false
  · rw [if_pos h2] at hf; cases hf
  rw [if_neg h2] at hf
  by_cases h3 : st.predFails p.1 = true
  · rw [if_pos h3] at hf; cases hf
  rw [if_neg h3] at hf
  rw [← Option.some.inj hf]
  simp

theorem blendFold_fst_length (ws : List (ModelName × ℚ)) (preds : List (ModelName × List ℚ))
    (acc : List ℚ) (t : ℚ) (h : ∀ pr ∈ preds, pr.2.length = acc.length) :
    ((preds.foldl (blendStep ws) (acc, t)).1).length = acc.length := by
  induction preds generalizing acc t with
  | nil => rfl
  | cons p ps ih =>
    have hp : p.2.length = acc.length := h p (by simp)
    have hlen : (List.zipWith (fun a x => a + weightOf ws p.1 * x) acc p.2).length
        = acc.length := by
      rw [List.length_zipWith, hp]
      exact Nat.min_self _
    rw [List.foldl_cons]
    show ((ps.foldl (blendStep ws)
      (List.zipWith (fun a x => a + weightOf ws p.1 * x) acc p.2,
       t + weightOf ws p.1)).1).length = acc.length
    rw [ih _ _ (by intro pr hpr; rw [hlen]; exact h pr (by simp [hpr]))]
    exact hlen

theorem blendFold_snd (ws : List (ModelName × ℚ)) (preds : List (ModelName × List ℚ))
    (acc : List ℚ) (t : ℚ) :
    (preds.foldl (blendStep ws) (acc, t)).2
      = t + (preds.map (fun pr => weightOf ws pr.1)).sum := by
  induction preds generalizing acc t with
  | nil => simp
  | cons p ps ih =>
    rw [List.foldl_cons]
    show (ps.foldl (blendStep ws)
      (List.zipWith (fun a x => a + weightOf ws p.1 * x) acc p.2,
       t + weightOf ws p.1)).2 = _
    rw [ih]
    simp [add_assoc]

theorem blendFold_fst_getD (ws : List (ModelName × ℚ)) (preds : List (ModelName × List ℚ))
    (acc : List ℚ) (t : ℚ) (i : Nat) (hi : i < acc.length)
    (h : ∀ pr ∈ preds, pr.2.length = acc.length) :
    ((preds.foldl (blendStep ws) (acc, t)).1).getD i 0
      = acc.getD i 0 + (preds.map (fun pr => weightOf ws pr.1 * pr.2.getD i 0)).sum := by
  induction preds generalizing acc t with
  | nil => simp
  | cons p ps ih =>
    have hp : p.2.length = acc.length := h p (by simp)
    have hlen : (List.zipWith (fun a x => a + weightOf ws p.1 * x) acc p.2).length
        = acc.length := by
      rw [List.length_zipWith, hp]
      exact Nat.min_self _
    have hstep : (List.zipWith (fun a x => a + weightOf ws p.1 * x) acc p.2).getD i 0
        = acc.getD i 0 + weightOf ws p.1 * p.2.getD i 0 := by
      have hiz : i < (List.zipWith (fun a x => a + weightOf ws p.1 * x) acc p.2).length := by
        rw [hlen]; exact hi
      rw [List.getD_eq_getElem _ _ hiz, List.getElem_zipWith,
        List.getD_eq_getElem _ _ hi, List.getD_eq_getElem _ _ (by rw [hp]; exact hi)]
    rw [List.foldl_cons]
    show ((ps.foldl (blendStep ws)
      (List.zipWith (fun a x => a + weightOf ws p.1 * x) acc p.2,
       t + weightOf ws p.1)).1).getD i 0 = _
    rw [ih _ _ (by rw [hlen]; exact hi)
        (by intro pr hpr; rw [hlen]; exact h pr (by simp [hpr])), hstep]
    simp [add_assoc]

theorem zerosVec_getD (n i : Nat) : (zerosVec n).getD i 0 = 0 := by
  unfold zerosVec
  by_cases hi : i < n
  · rw [List.getD_eq_getElem _ _ (by simpa using hi), List.getElem_replicate]
  · rw [List.getD_eq_default]
    simpa using hi

/-- `predict` in the success case: the result exists and has one entry per
input row.  Shared backbone of the `predict`-shaped claims. -/
theorem predict_ok_spec (st : Forecaster) (X : List Row)
    (hfit : st.isFitted = true) (hne : modelPredictions st X ≠ []) :
    predict st X
      = .ok (if 0 < (blendFold st.weights (modelPredictions st X) X.length).2 then
          ((blendFold st.weights (modelPredictions st X) X.length).1).map
            (fun v => v / (blendFold st.weights (modelPredictions st X) X.length).2)
        else (blendFold st.weights (modelPredictions st X) X.length).1) := by
  unfold predict
  rw [hfit]
  simp only [Bool.true_eq_false, if_false]
  rw [if_neg (by simpa [List.isEmpty_iff] using hne)]

theorem blendFold_length_X (st : Forecaster) (X : List Row) :
    ((blendFold st.weights (modelPredictions st X) X.length).1).length = X.length := by
  unfold blendFold
  rw [blendFold_fst_length st.weights (modelPredictions st X) (zerosVec X.length) 0
      (by intro pr hpr
          rw [zerosVec, List.length_replicate]
          exact mem_modelPredictions_length st X pr hpr)]
  simp [zerosVec]

theorem predict_ok_length (st : Forecaster) (X : List Row)
    (hfit : st.isFitted = true) (hne : modelPredictions st X ≠ []) :
    ∃ l, predict st X = .ok l ∧ l.length = X.length := by
  refine ⟨_, predict_ok_spec st X hfit hne, ?_⟩
  split
  · rw [List.length_map]
    exact blendFold_length_X st X
  · exact blendFold_length_X st X

theorem blendFold_snd_eq_usedWeight (st : Forecaster) (X : List Row) :
    (blendFold st.weights (modelPredictions st X) X.length).2
      = usedWeight st.weights (modelPredictions st X) := by
  unfold blendFold usedWeight
  rw [blendFold_snd]
  simp

theorem blendFold_fst_getD_eq_weightedSum (st : Forecaster) (X : List Row) (i : Nat)
    (hi : i < X.length) :
    ((blendFold st.weights (modelPredictions st X) X.length).1).getD i 0
      = weightedSumAt st.weights (modelPredictions st X) i := by
  unfold blendFold weightedSumAt
  rw [blendFold_fst_getD st.weights (modelPredictions st X) (zerosVec X.length) 0 i
      (by simpa [zerosVec] using hi)
      (by intro pr hpr
          rw [zerosVec, List.length_replicate]
          exact mem_modelPredictions_length st X pr hpr),
    zerosVec_getD]
  simp

/-! ## Claim theorems about `predict` -/

/-- C7: for every fitted model and feature-row input of length `N` on which at
least one model succeeds in predicting, `predict` returns a sequence of
exactly `N` predictions. -/
theorem predict_preserves_row_count (st : Forecaster) (X : List Row)
    (hfit : st.isFitted = true) (hne : modelPredictions st X ≠ []) :
    ∃ l, predict st X = .ok l ∧ l.length = X.length :=
  predict_ok_length st X hfit hne

theorem predict_preserves_row_count_witness :
    ∃ l, predict stOne [[], []] = .ok l ∧ l.length = 2 :=
  predict_preserves_row_count stOne [[], []] rfl (by decide)

/-- C2: on every input where the prediction call of at least one model succeeds and
the succeeding models carry positive total ensemble weight, `predict` returns,
at each row, the weighted sum of the successfully produced per-model
predictions divided by the sum of the ensemble weights of exactly those models
(omitted models renormalise the blend). -/
theorem predict_blend_formula (st : Forecaster) (X : List Row) (i : Nat)
    (hfit : st.isFitted = true) (hne : modelPredictions st X ≠ [])
    (hpos : 0 < usedWeight st.weights (modelPredictions st X)) (hi : i < X.length) :
    ∃ l, predict st X = .ok l ∧
      l.getD i 0 = weightedSumAt st.weights (modelPredictions st X) i
        / usedWeight st.weights (modelPredictions st X) := by
  refine ⟨_, predict_ok_spec st X hfit hne, ?_⟩
  rw [if_pos (by rw [blendFold_snd_eq_usedWeight]; exact hpos)]
  have hlen : i < ((blendFold st.weights (modelPredictions st X) X.length).1).length := by
    rw [blendFold_length_X]; exact hi
  rw [List.getD_eq_getElem _ _ (by rw [List.length_map]; exact hlen), List.getElem_map,
    ← List.getD_eq_getElem _ 0 hlen, blendFold_fst_getD_eq_weightedSum st X i hi,
    blendFold_snd_eq_usedWeight]

theorem predict_blend_formula_witness :
    ∃ l, predict stOne [[], []] = .ok l ∧
      l.getD 0 0 = weightedSumAt stOne.weights (modelPredictions stOne [[], []]) 0
        / usedWeight stOne.weights (modelPredictions stOne [[], []]) :=
  predict_blend_formula stOne [[], []] 0 rfl (by decide)
    (by
      have h1 : modelPredictions stOne [[], []] = [(ModelName.rf, [2, 2])] := by decide
      have h2 : weightOf stOne.weights ModelName.rf = 1 := by decide
      rw [h1]
      simp [usedWeight, h2])
    (by norm_num)

/-- C10: on every fitted state and input on which every model whose prediction
call succeeds has ensemble weight `0` (e.g. only the time-series model
succeeds, which is never assigned a weight), `predict` does not raise and
returns the all-zero sequence of the input length rather than the prediction of any
prediction. -/
theorem predict_zero_weight_returns_zeros (st : Forecaster) (X : List Row)
    (hfit : st.isFitted = true) (hne : modelPredictions st X ≠ [])
    (hzero : ∀ pr ∈ modelPredictions st X, weightOf st.weights pr.1 = 0) :
    predict st X = .ok (List.replicate X.length 0) := by
  rw [predict_ok_spec st X hfit hne]
  have htw : (blendFold st.weights (modelPredictions st X) X.length).2 = 0 := by
    rw [blendFold_snd_eq_usedWeight]
    unfold usedWeight
    exact List.sum_eq_zero (by
      intro x hx
      rcases List.mem_map.mp hx with ⟨pr, hpr, rfl⟩
      exact hzero pr hpr)
  rw [if_neg (show ¬ 0 < (blendFold st.weights (modelPredictions st X) X.length).2 by
    rw [htw]; exact lt_irrefl 0)]
  congr 1
  apply List.ext_getElem
  · rw [blendFold_length_X, List.length_replicate]
  · intro n h1 h2
    rw [List.getElem_replicate, ← List.getD_eq_getElem _ 0 h1,
      blendFold_fst_getD_eq_weightedSum st X n
        (by rw [← blendFold_length_X st X]; exact h1)]
    unfold weightedSumAt
    exact List.sum_eq_zero (by
      intro x hx
      rcases List.mem_map.mp hx with ⟨pr, hpr, rfl⟩
      rw [hzero pr hpr, zero_mul])

theorem predict_zero_weight_returns_zeros_witness :
    predict stArimaOnly [[], [], []] = .ok (List.replicate 3 0) :=
  predict_zero_weight_returns_zeros stArimaOnly [[], [], []] rfl (by decide) (by decide)

/-- C6: `predict` and `evaluate` raise before any successful fit; `predict`
raises when no model produces a prediction; and `predict` returns without
raising when at least one model produces a prediction. -/
theorem predict_evaluate_guards :
    (∀ (st : Forecaster) (X : List Row), st.isFitted = false →
      (predict st X).isOk = false) ∧
    (∀ st : Forecaster, st.isFitted = false → (evaluate st).isOk = false) ∧
    (∀ (st : Forecaster) (X : List Row), modelPredictions st X = [] →
      (predict st X).isOk = false) ∧
    (∀ (st : Forecaster) (X : List Row), st.isFitted = true →
      modelPredictions st X ≠ [] → (predict st X).isOk = true) := by
  refine ⟨?_, ?_, ?_, ?_⟩
  · intro st X h
    unfold predict
    rw [if_pos h]
    rfl
  · intro st h
    unfold evaluate
    rw [if_pos h]
    rfl
  · intro st X h
    unfold predict
    by_cases hf : st.isFitted = false
    · rw [if_pos hf]; rfl
    · rw [if_neg hf]
      show ((if (modelPredictions st X).isEmpty then _ else _ : Except String (List ℚ))).isOk
          = false
      rw [if_pos (by simp [h])]
      rfl
  · intro st X hfit hne
    rw [predict_ok_spec st X hfit hne]
    rfl

theorem predict_evaluate_guards_witness :
    (predict stPre []).isOk = false ∧ (evaluate stPre).isOk = false ∧
    (predict stNoPred [[]]).isOk = false ∧ (predict stOne [[], []]).isOk = true :=
  ⟨predict_evaluate_guards.1 stPre [] rfl,
   predict_evaluate_guards.2.1 stPre rfl,
   predict_evaluate_guards.2.2.1 stNoPred [[]] (by decide),
   predict_evaluate_guards.2.2.2 stOne [[], []] rfl (by decide)⟩

/-! ## Claim theorems about `fit`, `evaluate`, `forecast_future` -/

/-- C3 counterexample: a training failure of the very first individual
regressor (`rf`) is NOT caught — `fit` propagates it and fails as a whole even
though every other model could have fit. -/
theorem fit_rf_failure_propagates :
    fitModels { rfFails := true, gbFails := false, ridgeFails := false,
                elasticFails := false, arimaFails := false, lstmFails := false,
                tensorflowAvailable := false } = .error ("rf training failed") := rfl

/-- C3 amended: only the time-series (ARIMA) and sequence (LSTM) training
failures are caught and recorded as unavailable; provided the four individual
regressors train successfully, `fit` succeeds with at least one fitted model
(`rf`), whatever happens to ARIMA and LSTM. -/
theorem fit_catches_arima_and_lstm_failures (o : TrainOutcome)
    (h1 : o.rfFails = false) (h2 : o.gbFails = false)
    (h3 : o.ridgeFails = false) (h4 : o.elasticFails = false) :
    ∃ ms, fitModels o = .ok ms ∧ (ModelName.rf, true) ∈ ms ∧
      (ModelName.arima, !o.arimaFails) ∈ ms ∧
      (o.tensorflowAvailable = true → (ModelName.lstm, !o.lstmFails) ∈ ms) := by
  have hfit : fitModels o
      = .ok ([(.rf, true), (.gb, true), (.ridge, true), (.elastic, true),
          (.arima, !o.arimaFails)] ++
         (if o.tensorflowAvailable then [(.lstm, !o.lstmFails)] else [])) := by
    simp [fitModels, h1, h2, h3, h4]
  refine ⟨_, hfit, by simp, by simp, fun htf => by simp [htf]⟩

theorem fit_catches_arima_and_lstm_failures_witness :
    ∃ ms, fitModels { rfFails := false, gbFails := false, ridgeFails := false,
                      elasticFails := false, arimaFails := true, lstmFails := true,
                      tensorflowAvailable := true } = .ok ms ∧ (ModelName.rf, true) ∈ ms ∧
      (ModelName.arima, false) ∈ ms ∧
      (true = true → (ModelName.lstm, false) ∈ ms) :=
  fit_catches_arima_and_lstm_failures _ rfl rfl rfl rfl

/-- C4: for every fitted model, history table with maximum date `d` and
horizon `n` (on which at least one model produces a prediction),
`forecast_future` returns a date/predicted-price table with exactly `n` rows
whose dates start at `d + 1` and strictly increase by exactly one day per
row. -/
theorem forecast_future_shape (st : Forecaster) (dates : List Nat) (n : Nat)
    (futureRowOf : Nat → Row) (hfit : st.isFitted = true)
    (hne : modelPredictions st ((List.range n).map futureRowOf) ≠ []) :
    ∃ rows, forecast_future st dates n futureRowOf = .ok rows ∧
      rows.length = n ∧
      (∀ i, i < n → (rows.getD i (0, 0)).1 = lastDateOf dates + 1 + i) ∧
      (∀ i, i + 1 < n → (rows.getD (i + 1) (0, 0)).1 = (rows.getD i (0, 0)).1 + 1) := by
  obtain ⟨l, hl, hlen⟩ := predict_ok_length st _ hfit hne
  rw [List.length_map, List.length_range] at hlen
  have hfd : (futureDates (lastDateOf dates) n).length = n := by
    simp [futureDates]
  have hziplen : ((futureDates (lastDateOf dates) n).zip l).length = n := by
    rw [List.length_zip, hfd, hlen]
    exact Nat.min_self n
  have hget : ∀ i, i < n →
      (((futureDates (lastDateOf dates) n).zip l).getD i (0, 0)).1
        = lastDateOf dates + 1 + i := by
    intro i hi
    have hiz : i < ((futureDates (lastDateOf dates) n).zip l).length := by
      rw [hziplen]; exact hi
    rw [List.getD_eq_getElem _ _ hiz, List.getElem_zip]
    simp [futureDates]
  refine ⟨(futureDates (lastDateOf dates) n).zip l, ?_, hziplen, hget, ?_⟩
  · unfold forecast_future
    rw [hfit]
    simp only [Bool.true_eq_false, if_false]
    rw [hl]
  · intro i hi
    rw [hget (i + 1) hi, hget i (by omega)]
    omega

theorem forecast_future_shape_witness :
    ∃ rows, forecast_future stOne [10, 12, 11] 2 (fun _ => []) = .ok rows ∧
      rows.length = 2 ∧
      (∀ i, i < 2 → (rows.getD i (0, 0)).1 = 12 + 1 + i) ∧
      (∀ i, i + 1 < 2 → (rows.getD (i + 1) (0, 0)).1 = (rows.getD i (0, 0)).1 + 1) :=
  forecast_future_shape stOne [10, 12, 11] 2 (fun _ => []) rfl (by decide)

/-- C9: the MAPE computed by `evaluate` divides by each held-out actual price
with no guard: there is a fitted state whose held-out actuals contain `0` on
which the MAPE computation performs a division by zero (modelled: the MAPE
component is `none`), while on every fitted state whose held-out actuals are
all non-zero (and on which prediction succeeds) it does not. -/
theorem evaluate_mape_division_by_zero :
    (∃ st : Forecaster, (0 : ℚ) ∈ st.yTest ∧
      ∃ mae mse, evaluate st = .ok (mae, mse, none)) ∧
    (∀ st : Forecaster, st.isFitted = true → (∀ y ∈ st.yTest, y ≠ 0) →
      ∀ yp, predict st st.XTest = .ok yp →
        evaluate st = .ok (maeOf st.yTest yp, mseOf st.yTest yp,
          some (100 * ((List.zipWith (fun a b => |(a - b) / a|) st.yTest yp).sum
            / (st.yTest.length : ℚ))))) := by
  constructor
  · obtain ⟨l, hl, _⟩ :=
      predict_ok_length stZeroActual stZeroActual.XTest rfl (by decide)
    refine ⟨stZeroActual, by decide,
      maeOf stZeroActual.yTest l, mseOf stZeroActual.yTest l, ?_⟩
    have hmape : mapeOf stZeroActual.yTest l = none := by
      unfold mapeOf
      rw [if_pos (by decide)]
    unfold evaluate
    rw [if_neg (by decide), hl]
    show Except.ok (maeOf stZeroActual.yTest l, mseOf stZeroActual.yTest l,
      mapeOf stZeroActual.yTest l) = _
    rw [hmape]
  · intro st hfit hnz yp hyp
    have hmape : mapeOf st.yTest yp
        = some (100 * ((List.zipWith (fun a b => |(a - b) / a|) st.yTest yp).sum
            / (st.yTest.length : ℚ))) := by
      unfold mapeOf
      rw [if_neg (fun h0 => hnz 0 h0 rfl)]
    unfold evaluate
    rw [if_neg (by rw [hfit]; simp), hyp]
    show Except.ok (maeOf st.yTest yp, mseOf st.yTest yp, mapeOf st.yTest yp) = _
    rw [hmape]

theorem evaluate_mape_division_by_zero_witness :
    evaluate stOne = .ok (maeOf stOne.yTest [2, 2], mseOf stOne.yTest [2, 2],
      some (100 * ((List.zipWith (fun a b => |(a - b) / a|) stOne.yTest [2, 2]).sum
        / (stOne.yTest.length : ℚ)))) := by
  have hp : predict stOne stOne.XTest = .ok [2, 2] := by
    have h1 : modelPredictions stOne [[], []] = [(ModelName.rf, [2, 2])] := by decide
    have h2 : weightOf stOne.weights ModelName.rf = 1 := by decide
    rw [predict_ok_spec stOne stOne.XTest rfl (by decide)]
    show Except.ok _ = _
    rw [show stOne.XTest = [[], []] from rfl]
    rw [h1]
    simp [blendFold, blendStep, zerosVec, h2]
  exact evaluate_mape_division_by_zero.2 stOne rfl (by decide) [2, 2] hp

end WCF
